import Mathlib

/-!
Verification of the e-commerce backend (order creation, payment status
transitions, product soft delete, password reset) against its specification.

The repository code is shallowly embedded: Django model rows become Lean
structures, the database becomes explicit lists of rows threaded through the
handlers, monetary `Decimal` values with two decimal places become integer
cent amounts (a 2-dp decimal `d` is the integer `100 * d`), and fallible
handlers return `Except` values.  `@transaction.atomic` becomes a wrapper that
discards the partially written state whenever the inner computation errors.
-/

namespace Shop

/-- Row of `products.models.Product`: `id` (primary key), `name`, `price`
(a 2-dp `DecimalField`, held here in cents), `stock`
(a `PositiveIntegerField`, held as `Int` so that nonnegativity is a provable
property rather than a typing artifact), `is_active`. -/
structure Product where
  id : Nat
  name : String
  price : Int
  stock : Int
  is_active : Bool
deriving DecidableEq, Repr

/-- One entry of `OrderCreateSerializer.items`
(`OrderItemCreateSerializer`): `product_id` and `quantity`. -/
structure CartItem where
  product_id : Nat
  quantity : Int
deriving DecidableEq, Repr

/-- Payload fields of `orders.models.Address` (snapshot storage). -/
structure AddressIn where
  full_name : String
  line1 : String
  city : String
  country : String
deriving DecidableEq, Repr

/-- Persisted `orders.models.Address` row: primary key plus payload. -/
structure Address where
  id : Nat
  data : AddressIn
deriving DecidableEq, Repr

/-- Row of `orders.models.Order`.  Status choices are stored as strings, as
Django `TextChoices` are.  All totals are cents.  `idempotency_key` is the
nullable unique column. -/
structure Order where
  id : Nat
  user : Nat
  number : String
  status : String
  currency : String
  subtotal : Int
  discount_total : Int
  tax_total : Int
  shipping_total : Int
  grand_total : Int
  idempotency_key : Option String
  shipping_address : Nat
  billing_address : Nat
deriving DecidableEq, Repr

/-- Row of `orders.models.OrderItem`: snapshotted `name` and `unit_price`
(cents), `quantity`, `line_total` (cents), foreign keys `order`, `product`. -/
structure OrderItem where
  id : Nat
  order : Nat
  product : Nat
  name : String
  unit_price : Int
  quantity : Int
  line_total : Int
deriving DecidableEq, Repr

/-- The relational store seen by the orders app: the row tables plus a
counter supplying fresh primary keys (and the order-number suffix, which the
source derives from the wall clock; only freshness matters here). -/
structure DB where
  products : List Product
  orders : List Order
  orderItems : List OrderItem
  addresses : List Address
  nextId : Nat
deriving DecidableEq, Repr

/-- Failure modes of the order-creation endpoint.  `invalidQuantity` and
`emptyCart` arise from serializer validation, `invalidItems` and
`insufficientStock` from the checks inside `create`, `keyError` models a
`product_map[...]` lookup miss (unreachable once the count check passed), and
`integrityError` models the database unique constraint on
`Order.idempotency_key` rejecting the insert. -/
inductive CreateError where
  | invalidQuantity
  | emptyCart
  | invalidItems
  | insufficientStock (name : String)
  | keyError
  | integrityError
deriving DecidableEq, Repr

/-- Rounding of a rational `a / b` (with `b > 0`) to the nearest integer,
ties to even: the `ROUND_HALF_EVEN` applied by `Decimal.quantize`.  Used with
`a = subtotal * 16`, `b = 100` this is `round(subtotal * Decimal("0.16"),
2 decimal places)` expressed in cents. -/
def divHalfEven (a b : Int) : Int :=
  let q := Int.ediv a b
  let r := Int.emod a b
  if 2 * r < b then q
  else if b < 2 * r then q + 1
  else if Int.emod q 2 = 0 then q else q + 1

/-- Python truthiness of an optional string, as in
`if idempotency_key:` and `idempotency_key or None`: an absent header and an
empty header value behave identically. -/
def keyTruthy : Option String → Option String
  | some k => if k = "" then none else some k
  | none => none

/-- The idempotency lookup
`Order.objects.filter(idempotency_key=..., user=...).first()`, guarded by the
truthiness test on the header value. -/
def idemLookup (db : DB) (u : Nat) (key : Option String) : Option Order :=
  match keyTruthy key with
  | some k => db.orders.find? (fun o => o.idempotency_key == some k && o.user == u)
  | none => none

/-- The locking query
`Product.objects.select_for_update().filter(id__in=product_ids,
is_active=True)`.  Primary keys are unique in the store, so the `product_map`
dict built from this queryset has exactly these rows. -/
def lockActiveProducts (db : DB) (pids : List Nat) : List Product :=
  db.products.filter (fun p => pids.contains p.id && p.is_active)

/-- The per-line loop of `OrderCreateSerializer.create`: look each line's
product up in `product_map`, fail on insufficient stock, compute
`line_total = (p.price * qty).quantize(Decimal("0.01"))` — exact in cents
since prices carry two decimals — and accumulate the subtotal.  Returns the
`prepared_items` list `(product, quantity, line_total)` and the subtotal. -/
def buildLines (prods : List Product) :
    List CartItem → Except CreateError (List (Product × Int × Int) × Int)
  | [] => .ok ([], 0)
  | i :: rest =>
    match prods.find? (fun p => p.id == i.product_id) with
    | none => .error .keyError
    | some p =>
      if p.stock < i.quantity then .error (.insufficientStock p.name)
      else
        match buildLines prods rest with
        | .error e => .error e
        | .ok (tail, sub) =>
          .ok ((p, i.quantity, p.price * i.quantity) :: tail,
               p.price * i.quantity + sub)

/-- Quantity a cart requests for a given product id (0 if the product is not
in the cart); the first matching line governs, as in the dict lookups of the
source. -/
def qtyFor (items : List CartItem) (pid : Nat) : Int :=
  match items.find? (fun i => i.product_id == pid) with
  | some i => i.quantity
  | none => 0

/-- The `p.stock -= qty` loop followed by
`Product.objects.bulk_update(products, ["stock"])`: every product that
appears in `prepared_items` has its stock decremented by the purchased
quantity, all other rows are untouched. -/
def decrementStock (prep : List (Product × Int × Int)) (ps : List Product) :
    List Product :=
  ps.map (fun p =>
    match prep.find? (fun t => t.1.id == p.id) with
    | some t => { p with stock := p.stock - t.2.1 }
    | none => p)

/-- The unique-constraint check the storage engine performs when
`Order.objects.create` inserts the row: a non-null `idempotency_key` equal to
an existing row's key raises `IntegrityError`. -/
def insertConflict (db : DB) (normKey : Option String) : Bool :=
  normKey.isSome && db.orders.any (fun o => o.idempotency_key == normKey)

/-- The `OrderItem` rows built in the `bulk_items` loop: each prepared line
becomes a row referencing the new order, with snapshotted name and unit
price. -/
def mkItems (oid nid : Nat) : List (Product × Int × Int) → List OrderItem
  | [] => []
  | t :: rest =>
    { id := nid, order := oid, product := t.1.id, name := t.1.name,
      unit_price := t.1.price, quantity := t.2.1, line_total := t.2.2 } ::
    mkItems oid (nid + 1) rest

/-- Tail of `OrderCreateSerializer.create` after the stock loop succeeded:
totals (16 percent tax rounded half-even, flat 5.00 shipping below the 100.00
subtotal threshold, zero discount), the two address snapshots, the `Order`
row with status `PENDING`, the `OrderItem` rows, and the stock decrement. -/
def finishCreate (db : DB) (u : Nat) (normKey : Option String)
    (ship bill : AddressIn) (cur : String)
    (prep : List (Product × Int × Int)) (subtotal : Int) : DB × Order :=
  let tax_total := divHalfEven (subtotal * 16) 100
  let shipping_total : Int := if subtotal < 10000 then 500 else 0
  let discount_total : Int := 0
  let grand_total := subtotal - discount_total + tax_total + shipping_total
  let shipId := db.nextId
  let billId := db.nextId + 1
  let oid := db.nextId + 2
  let order : Order :=
    { id := oid, user := u, number := "ORD-" ++ toString oid,
      status := "PENDING", currency := cur, subtotal := subtotal,
      discount_total := discount_total, tax_total := tax_total,
      shipping_total := shipping_total, grand_total := grand_total,
      idempotency_key := normKey,
      shipping_address := shipId, billing_address := billId }
  ({ products := decrementStock prep db.products,
     orders := db.orders ++ [order],
     orderItems := db.orderItems ++ mkItems oid (oid + 1) prep,
     addresses := db.addresses ++ [⟨shipId, ship⟩, ⟨billId, bill⟩],
     nextId := oid + 1 + prep.length },
   order)

/-- `OrderCreateSerializer.create` (the body under `@transaction.atomic`):
idempotency short-circuit, product locking and the count check, the stock and
pricing loop, the uniqueness constraint on insert, then persistence. -/
def createInner (db : DB) (u : Nat) (key : Option String)
    (items : List CartItem) (ship bill : AddressIn) (cur : String) :
    Except CreateError (DB × Order) :=
  match idemLookup db u key with
  | some existing => .ok (db, existing)
  | none =>
    let pids := items.map (fun i => i.product_id)
    let prods := lockActiveProducts db pids
    if prods.length ≠ pids.length then .error .invalidItems
    else
      match buildLines prods items with
      | .error e => .error e
      | .ok (prep, subtotal) =>
        if insertConflict db (keyTruthy key) then .error .integrityError
        else .ok (finishCreate db u (keyTruthy key) ship bill cur prep subtotal)

/-- Serializer-level validation that runs before `create`: the
`min_value=1` field validator on every quantity and the non-empty check of
`OrderCreateSerializer.validate`. -/
def validateCart (items : List CartItem) : Except CreateError Unit :=
  if items.any (fun i => i.quantity < 1) then .error .invalidQuantity
  else if items.isEmpty then .error .emptyCart
  else .ok ()

/-- The full order-creation endpoint: field and serializer validation, then
`create` under `@transaction.atomic` — on any error the store is rolled back
to its pre-transaction state, which the wrapper expresses by returning the
original `db` alongside the error. -/
def createOrderEndpoint (db : DB) (u : Nat) (key : Option String)
    (items : List CartItem) (ship bill : AddressIn) (cur : String) :
    DB × Except CreateError Order :=
  match validateCart items with
  | .error e => (db, .error e)
  | .ok _ =>
    match createInner db u key items ship bill cur with
    | .ok (db', o) => (db', .ok o)
    | .error e => (db, .error e)

/-- Primary keys of the product table are pairwise distinct (enforced by the
storage engine; hypothesis of the theorems that rely on it). -/
def ProductIdsNodup (db : DB) : Prop :=
  (db.products.map (fun p => p.id)).Nodup

/-- Every persisted order-item row references an order created under the
current id counter — true of every store the application itself built. -/
def FreshIds (db : DB) : Prop :=
  ∀ it ∈ db.orderItems, it.order < db.nextId

/-- At most one persisted order carries any given non-null idempotency key:
the invariant backed by the `unique=True` column. -/
def UniqueKeys (db : DB) : Prop :=
  ∀ o1 ∈ db.orders, ∀ o2 ∈ db.orders, ∀ k : String,
    o1.idempotency_key = some k → o2.idempotency_key = some k → o1 = o2

/-- Relation between a `prepared_items` entry and the cart line it came
from: the product is the `product_map` lookup result for the line's id, the
quantity is the line's quantity, the line total is price times quantity, and
the stock check passed. -/
def LineRel (prods : List Product) (t : Product × Int × Int) (i : CartItem) :
    Prop :=
  prods.find? (fun p => p.id == i.product_id) = some t.1 ∧
  t.2.1 = i.quantity ∧ t.2.2 = t.1.price * i.quantity ∧
  ¬ t.1.stock < i.quantity

/-- Row of `payments.models.Payment`: one-to-one `order` foreign key, owner,
amount in cents, currency, status string (`TextChoices` PENDING, SUCCESS,
FAILED, REFUNDED — the admin endpoint additionally writes the literal
`"PAID"`), transaction id and raw provider payload. -/
structure Payment where
  id : Nat
  order : Nat
  user : Nat
  amount : Int
  currency : String
  status : String
  transaction_id : String
  raw_response : Option String
deriving DecidableEq, Repr

/-- The slice of the store the payments app touches. -/
structure PayDB where
  orders : List Order
  payments : List Payment
deriving DecidableEq, Repr

/-- An HTTP reply: status code and the `detail` text of the JSON body. -/
structure Response where
  code : Nat
  detail : String
deriving DecidableEq, Repr

/-- Python truthiness of an optional integer (`if not order_id`): an absent
value and the integer 0 are both falsy. -/
def truthyNat : Option Nat → Option Nat
  | some n => if n = 0 then none else some n
  | none => none

/-- The method `Payment.mark_successful`: set the payment status to SUCCESS,
optionally record the transaction id and raw payload (Python truthiness
guards), save, then force the linked order status to PAID and save it. -/
def markSuccessful (p : Payment) (o : Order) (txn raw : Option String) :
    Payment × Order :=
  let p1 := { p with status := "SUCCESS" }
  let p2 := match txn with
    | some t => if t = "" then p1 else { p1 with transaction_id := t }
    | none => p1
  let p3 := match raw with
    | some r => if r = "" then p2 else { p2 with raw_response := some r }
    | none => p2
  (p3, { o with status := "PAID" })

/-- The handler `AdminPaymentViewSet.update`: require truthy `order_id` and
`status`, resolve the order and its one-to-one payment, allow only the exact
targets PAID and REFUNDED, reject REFUNDED unless the payment status is
already the literal PAID, and on acceptance write the target status onto both
the payment row and the order row. -/
def adminPaymentUpdate (db : PayDB) (order_id : Option Nat)
    (status_value : Option String) : PayDB × Response :=
  match truthyNat order_id, keyTruthy status_value with
  | some oid, some sv =>
    match db.orders.find? (fun o => o.id == oid),
          db.payments.find? (fun p => p.order == oid) with
    | some _, some p =>
      if sv ≠ "PAID" ∧ sv ≠ "REFUNDED" then
        (db, ⟨400, "Status must be either PAID or REFUNDED."⟩)
      else if sv = "REFUNDED" ∧ p.status ≠ "PAID" then
        (db, ⟨400, "Cannot refund a payment that is not already PAID."⟩)
      else
        ({ orders := db.orders.map (fun o2 =>
             if o2.id == oid then { o2 with status := sv } else o2),
           payments := db.payments.map (fun p2 =>
             if p2.id == p.id then { p2 with status := sv } else p2) },
         ⟨200, ""⟩)
    | _, _ => (db, ⟨404, "Order or payment not found."⟩)
  | _, _ => (db, ⟨400, "order_id and status are required."⟩)

/-- Row of the user table as the password-reset flow sees it. -/
structure User where
  id : Nat
  email : String
deriving DecidableEq, Repr

/-- The handler `PasswordResetRequestView.post` after serializer validation:
look the user up by email; on a miss return 200 with the generic message; on
a hit build the link, dispatch the email (the Bool component — a side effect
that is not part of the HTTP reply) and return 200 with the same generic
message. -/
def resetRequestResponse (users : List User) (email : String) :
    Response × Bool :=
  match users.find? (fun u => u.email == email) with
  | none => (⟨200, "If this email exists, a reset link has been sent."⟩, false)
  | some _ => (⟨200, "If this email exists, a reset link has been sent."⟩, true)

/-- The product delete endpoint.  `ProductViewSet` declares no `destroy`
override, so the framework default applies: resolve the object inside
`queryset = Product.objects.filter(is_active=True)` (404 on a miss), then
`instance.delete()` — a physical row deletion.  The `on_delete=PROTECT` on
`OrderItem.product` makes the deletion raise (500) when order items reference
the row; otherwise the row is removed from the table. -/
def productDestroy (db : DB) (pid : Nat) : DB × Nat :=
  match (db.products.filter (fun p => p.is_active)).find?
      (fun p => p.id == pid) with
  | none => (db, 404)
  | some _ =>
    if db.orderItems.any (fun it => it.product == pid) then (db, 500)
    else
      ({ db with products := db.products.filter (fun p => !(p.id == pid)) },
       204)

/-- Concrete store for the worked example of the specification: products A
(10.00, stock 5) and B (5.00, stock 5), empty order tables. -/
def exDB : DB :=
  { products := [⟨1, "A", 1000, 5, true⟩, ⟨2, "B", 500, 5, true⟩],
    orders := [], orderItems := [], addresses := [], nextId := 100 }

/-- Address payload used by the concrete examples. -/
def exAddr : AddressIn := ⟨"N", "L1", "C", "US"⟩

/-- The example cart: two of product A, one of product B. -/
def exCart : List CartItem := [⟨1, 2⟩, ⟨2, 1⟩]

/-- The order the example cart produces on `exDB`: subtotal 25.00, zero
discount, tax 4.00, shipping 5.00, grand total 34.00. -/
def exOrder1 : Order :=
  ⟨102, 7, "ORD-102", "PENDING", "USD", 2500, 0, 400, 500, 3400, none,
   100, 101⟩

/-- The store after the example order: stocks decremented to 3 and 4, the
order, its two items, and the two address snapshots persisted. -/
def exDB1 : DB :=
  { products := [⟨1, "A", 1000, 3, true⟩, ⟨2, "B", 500, 4, true⟩],
    orders := [exOrder1],
    orderItems := [⟨103, 102, 1, "A", 1000, 2, 2000⟩,
                   ⟨104, 102, 2, "B", 500, 1, 500⟩],
    addresses := [⟨100, exAddr⟩, ⟨101, exAddr⟩],
    nextId := 105 }

/-- The example order as created when the request carries idempotency key
r1. -/
def exOrderR : Order :=
  ⟨102, 7, "ORD-102", "PENDING", "USD", 2500, 0, 400, 500, 3400, some "r1",
   100, 101⟩

/-- The store after the keyed example order. -/
def exDBr : DB :=
  { products := [⟨1, "A", 1000, 3, true⟩, ⟨2, "B", 500, 4, true⟩],
    orders := [exOrderR],
    orderItems := [⟨103, 102, 1, "A", 1000, 2, 2000⟩,
                   ⟨104, 102, 2, "B", 500, 1, 500⟩],
    addresses := [⟨100, exAddr⟩, ⟨101, exAddr⟩],
    nextId := 105 }

/-- An order of a different user (user 9) already carrying idempotency key
k1. -/
def exOrderOther : Order :=
  ⟨150, 9, "ORD-150", "PENDING", "USD", 1000, 0, 160, 500, 1660, some "k1",
   10, 11⟩

/-- Store in which user 9 holds key k1 and product 1 is freely available. -/
def exDBk : DB :=
  { products := [⟨1, "A", 1000, 5, true⟩],
    orders := [exOrderOther], orderItems := [], addresses := [],
    nextId := 200 }

/-- Payments store whose single payment has status SUCCESS (the enum success
state), linked to order 1. -/
def exPayDB : PayDB :=
  { orders := [⟨1, 2, "ORD-1", "PAID", "USD", 2500, 0, 400, 500, 3400, none,
               0, 0⟩],
    payments := [⟨1, 1, 2, 3400, "USD", "SUCCESS", "", none⟩] }

/-- Payments store whose single payment is still PENDING. -/
def exPayDB7 : PayDB :=
  { orders := [⟨1, 2, "ORD-1", "PENDING", "USD", 2500, 0, 400, 500, 3400,
               none, 0, 0⟩],
    payments := [⟨1, 1, 2, 3400, "USD", "PENDING", "", none⟩] }

instance (db : DB) : Decidable (ProductIdsNodup db) := by
  unfold ProductIdsNodup; infer_instance

instance (db : DB) : Decidable (FreshIds db) := by
  unfold FreshIds; infer_instance

theorem lineRel_props {prods : List Product} {t : Product × Int × Int}
    {i : CartItem} (h : LineRel prods t i) :
    t.1 ∈ prods ∧ t.1.id = i.product_id ∧ t.2.1 = i.quantity ∧
    t.2.2 = t.1.price * i.quantity ∧ i.quantity ≤ t.1.stock := by
  obtain ⟨hfind, hq, hl, hs⟩ := h
  refine ⟨List.mem_of_find?_eq_some hfind, ?_, hq, hl, Int.not_lt.mp hs⟩
  have := List.find?_some hfind
  simpa using this

theorem forall₂_mem_left {α β : Type} {R : α → β → Prop} :
    ∀ {l1 : List α} {l2 : List β}, List.Forall₂ R l1 l2 →
    ∀ a ∈ l1, ∃ b ∈ l2, R a b
  | _, _, List.Forall₂.nil, a, ha => absurd ha (List.not_mem_nil a)
  | _, _, List.Forall₂.cons hr hrest, a, ha => by
    rcases List.mem_cons.mp ha with rfl | ha
    · exact ⟨_, List.mem_cons_self _ _, hr⟩
    · obtain ⟨b, hb, hab⟩ := forall₂_mem_left hrest a ha
      exact ⟨b, List.mem_cons_of_mem _ hb, hab⟩

theorem buildLines_ok (prods : List Product) :
    ∀ (items : List CartItem) (prep : List (Product × Int × Int)) (sub : Int),
    buildLines prods items = .ok (prep, sub) →
    sub = (prep.map (fun t => t.2.2)).sum ∧
    List.Forall₂ (LineRel prods) prep items := by
  intro items
  induction items with
  | nil =>
    intro prep sub h
    simp only [buildLines, Except.ok.injEq, Prod.mk.injEq] at h
    obtain ⟨h1, h2⟩ := h
    subst h1; subst h2
    exact ⟨rfl, List.Forall₂.nil⟩
  | cons i rest ih =>
    intro prep sub h
    simp only [buildLines] at h
    split at h
    · cases h
    · next p hf =>
      split at h
      · cases h
      · next hs =>
        split at h
        · cases h
        · next tail sub' hb =>
          simp only [Except.ok.injEq, Prod.mk.injEq] at h
          obtain ⟨h1, h2⟩ := h
          subst h1; subst h2
          obtain ⟨hsum, hrel⟩ := ih tail sub' hb
          constructor
          · simp [hsum]
          · exact List.Forall₂.cons ⟨hf, rfl, rfl, hs⟩ hrel

theorem buildLines_error (prods : List Product) :
    ∀ (items : List CartItem) (e : CreateError),
    buildLines prods items = .error e →
    e = .keyError ∨ ∃ s, e = .insufficientStock s := by
  intro items
  induction items with
  | nil => intro e h; cases h
  | cons i rest ih =>
    intro e h
    simp only [buildLines] at h
    split at h
    · simp only [Except.error.injEq] at h
      exact Or.inl h.symm
    · next p hf =>
      split at h
      · simp only [Except.error.injEq] at h
        exact Or.inr ⟨p.name, h.symm⟩
      · split at h
        · next e' hb =>
          simp only [Except.error.injEq] at h
          subst h
          exact ih e' hb
        · cases h

theorem find?_id_of_mem :
    ∀ (l : List Product), (l.map (fun p => p.id)).Nodup →
    ∀ p ∈ l, l.find? (fun q => q.id == p.id) = some p := by
  intro l
  induction l with
  | nil => intro _ p hp; cases hp
  | cons q rest ih =>
    intro hn p hp
    simp only [List.map_cons, List.nodup_cons] at hn
    by_cases hq : q.id = p.id
    · rcases List.mem_cons.mp hp with rfl | hp'
      · exact List.find?_cons_of_pos _ (by simp)
      · exact absurd (hq ▸ List.mem_map_of_mem (fun p => p.id) hp') hn.1
    · rcases List.mem_cons.mp hp with rfl | hp'
      · exact absurd rfl hq
      · rw [List.find?_cons_of_neg _ (by simpa using hq)]
        exact ih hn.2 p hp'

theorem lockActive_mem_pids (db : DB) (pids : List Nat) :
    ∀ p ∈ lockActiveProducts db pids, p.id ∈ pids ∧ p ∈ db.products := by
  intro p hp
  have hmem := List.mem_of_mem_filter hp
  have hcond := List.of_mem_filter hp
  simp only [Bool.and_eq_true] at hcond
  exact ⟨by simpa using hcond.1, hmem⟩

theorem lockActive_nodup (db : DB) (pids : List Nat) (hn : ProductIdsNodup db) :
    ((lockActiveProducts db pids).map (fun p => p.id)).Nodup :=
  List.Nodup.sublist (List.Sublist.map _ (List.filter_sublist _)) hn

theorem lockActive_coverage (db : DB) (pids : List Nat)
    (hn : ProductIdsNodup db)
    (hlen : (lockActiveProducts db pids).length = pids.length) :
    ∀ x ∈ pids, ∃ p ∈ lockActiveProducts db pids, p.id = x := by
  intro x hx
  by_contra hno
  push_neg at hno
  have hn2 := lockActive_nodup db pids hn
  have hcard : ((lockActiveProducts db pids).map (fun p => p.id)).toFinset.card
      = (lockActiveProducts db pids).length := by
    rw [List.toFinset_card_of_nodup hn2, List.length_map]
  have hS : ((lockActiveProducts db pids).map (fun p => p.id)).toFinset
      ⊆ pids.toFinset.erase x := by
    intro y hy
    simp only [List.mem_toFinset, List.mem_map] at hy
    obtain ⟨p, hp, rfl⟩ := hy
    exact Finset.mem_erase.mpr
      ⟨hno p hp, List.mem_toFinset.mpr (lockActive_mem_pids db pids p hp).1⟩
  have hle := Finset.card_le_card hS
  rw [hcard, Finset.card_erase_of_mem (List.mem_toFinset.mpr hx)] at hle
  have h1 : pids.toFinset.card ≤ pids.length := pids.toFinset_card_le
  have h2 : 0 < pids.toFinset.card :=
    Finset.card_pos.mpr ⟨x, List.mem_toFinset.mpr hx⟩
  omega

theorem buildLines_stockError (prods : List Product) :
    ∀ items : List CartItem,
    (∀ i ∈ items, ∃ p, prods.find? (fun q => q.id == i.product_id) = some p) →
    (∃ i ∈ items, ∃ p, prods.find? (fun q => q.id == i.product_id) = some p ∧
      p.stock < i.quantity) →
    ∃ s, buildLines prods items = .error (.insufficientStock s) := by
  intro items
  induction items with
  | nil => intro _ hbad; simp at hbad
  | cons i rest ih =>
    intro hcov hbad
    obtain ⟨p0, hp0⟩ := hcov i (List.mem_cons_self i rest)
    by_cases hs : p0.stock < i.quantity
    · refine ⟨p0.name, ?_⟩
      simp only [buildLines, hp0, if_pos hs]
    · have hbad' : ∃ i' ∈ rest, ∃ p,
          prods.find? (fun q => q.id == i'.product_id) = some p ∧
          p.stock < i'.quantity := by
        obtain ⟨i', hi', p, hp, hps⟩ := hbad
        rcases List.mem_cons.mp hi' with rfl | hmem
        · rw [hp0] at hp
          cases hp
          exact absurd hps hs
        · exact ⟨i', hmem, p, hp, hps⟩
      obtain ⟨s, hrest⟩ :=
        ih (fun i' hi' => hcov i' (List.mem_cons_of_mem _ hi')) hbad'
      refine ⟨s, ?_⟩
      simp only [buildLines, hp0, if_neg hs, hrest]

theorem createInner_ok_cases {db : DB} {u : Nat} {key : Option String}
    {items : List CartItem} {ship bill : AddressIn} {cur : String}
    {db' : DB} {o : Order}
    (h : createInner db u key items ship bill cur = .ok (db', o)) :
    (idemLookup db u key = some o ∧ db' = db) ∨
    (idemLookup db u key = none ∧
      ∃ prep subtotal,
        (lockActiveProducts db (items.map (fun i => i.product_id))).length
          = (items.map (fun i => i.product_id)).length ∧
        buildLines (lockActiveProducts db (items.map (fun i => i.product_id)))
          items = .ok (prep, subtotal) ∧
        insertConflict db (keyTruthy key) = false ∧
        finishCreate db u (keyTruthy key) ship bill cur prep subtotal
          = (db', o)) := by
  simp only [createInner] at h
  split at h
  · next ex hid =>
    simp only [Except.ok.injEq, Prod.mk.injEq] at h
    exact Or.inl ⟨by rw [hid, h.2], h.1.symm⟩
  · next hid =>
    split at h
    · cases h
    · next hl =>
      split at h
      · cases h
      · next prep subtotal hb =>
        split at h
        · cases h
        · next hc =>
          simp only [Except.ok.injEq] at h
          exact Or.inr ⟨hid, prep, subtotal, not_ne_iff.mp hl,
            hb, Bool.eq_false_iff.mpr hc, by rw [h]⟩

theorem createInner_error_cases {db : DB} {u : Nat} {key : Option String}
    {items : List CartItem} {ship bill : AddressIn} {cur : String}
    {e : CreateError}
    (h : createInner db u key items ship bill cur = .error e) :
    idemLookup db u key = none ∧
    (((lockActiveProducts db (items.map (fun i => i.product_id))).length
        ≠ (items.map (fun i => i.product_id)).length ∧ e = .invalidItems) ∨
     buildLines (lockActiveProducts db (items.map (fun i => i.product_id)))
        items = .error e ∨
     e = .integrityError) := by
  simp only [createInner] at h
  split at h
  · cases h
  · next hid =>
    refine ⟨hid, ?_⟩
    split at h
    · next hl =>
      simp only [Except.error.injEq] at h
      exact Or.inl ⟨hl, h.symm⟩
    · split at h
      · next e' hb =>
        simp only [Except.error.injEq] at h
        subst h
        exact Or.inr (Or.inl hb)
      · split at h
        · simp only [Except.error.injEq] at h
          exact Or.inr (Or.inr h.symm)
        · cases h

theorem endpoint_ok_inv {db : DB} {u : Nat} {key : Option String}
    {items : List CartItem} {ship bill : AddressIn} {cur : String}
    {db' : DB} {o : Order}
    (h : createOrderEndpoint db u key items ship bill cur = (db', .ok o)) :
    validateCart items = .ok () ∧
    createInner db u key items ship bill cur = .ok (db', o) := by
  simp only [createOrderEndpoint] at h
  split at h
  · simp only [Prod.mk.injEq] at h
    cases h.2
  · next hv =>
    refine ⟨by rw [hv], ?_⟩
    split at h
    · next db2 o2 hc =>
      simp only [Prod.mk.injEq, Except.ok.injEq] at h
      rw [hc, h.1, h.2]
    · simp only [Prod.mk.injEq] at h
      cases h.2

theorem endpoint_error_db {db : DB} {u : Nat} {key : Option String}
    {items : List CartItem} {ship bill : AddressIn} {cur : String}
    {e : CreateError}
    (h : (createOrderEndpoint db u key items ship bill cur).2 = .error e) :
    (createOrderEndpoint db u key items ship bill cur).1 = db := by
  cases hv : validateCart items with
  | error e' => simp only [createOrderEndpoint, hv]
  | ok u' =>
    cases hc : createInner db u key items ship bill cur with
    | error e' => simp only [createOrderEndpoint, hv, hc]
    | ok r =>
      obtain ⟨db2, o2⟩ := r
      simp only [createOrderEndpoint, hv, hc] at h
      cases h

theorem finishCreate_spec (db : DB) (u : Nat) (normKey : Option String)
    (ship bill : AddressIn) (cur : String)
    (prep : List (Product × Int × Int)) (subtotal : Int) :
    (finishCreate db u normKey ship bill cur prep subtotal).2.subtotal
        = subtotal ∧
    (finishCreate db u normKey ship bill cur prep subtotal).2.discount_total
        = 0 ∧
    (finishCreate db u normKey ship bill cur prep subtotal).2.tax_total
        = divHalfEven (subtotal * 16) 100 ∧
    (finishCreate db u normKey ship bill cur prep subtotal).2.shipping_total
        = (if subtotal < 10000 then 500 else 0) ∧
    (finishCreate db u normKey ship bill cur prep subtotal).2.grand_total
        = subtotal - 0 + divHalfEven (subtotal * 16) 100
          + (if subtotal < 10000 then 500 else 0) ∧
    (finishCreate db u normKey ship bill cur prep subtotal).2.id
        = db.nextId + 2 ∧
    (finishCreate db u normKey ship bill cur prep subtotal).2.user = u ∧
    (finishCreate db u normKey ship bill cur prep subtotal).2.idempotency_key
        = normKey ∧
    (finishCreate db u normKey ship bill cur prep subtotal).1.orders
        = db.orders
          ++ [(finishCreate db u normKey ship bill cur prep subtotal).2] ∧
    (finishCreate db u normKey ship bill cur prep subtotal).1.orderItems
        = db.orderItems ++ mkItems (db.nextId + 2) (db.nextId + 3) prep ∧
    (finishCreate db u normKey ship bill cur prep subtotal).1.products
        = decrementStock prep db.products :=
  ⟨rfl, rfl, rfl, rfl, rfl, rfl, rfl, rfl, rfl, rfl, rfl⟩

theorem mkItems_order_eq (oid : Nat) :
    ∀ (nid : Nat) (prep : List (Product × Int × Int)),
    ∀ it ∈ mkItems oid nid prep, it.order = oid := by
  intro nid prep
  induction prep generalizing nid with
  | nil => intro it hit; cases hit
  | cons t rest ih =>
    intro it hit
    rcases List.mem_cons.mp hit with rfl | hmem
    · rfl
    · exact ih (nid + 1) it hmem

theorem mkItems_fields (oid : Nat) :
    ∀ (nid : Nat) (prep : List (Product × Int × Int)),
    ∀ it ∈ mkItems oid nid prep, ∃ t ∈ prep,
      it.unit_price = t.1.price ∧ it.quantity = t.2.1 ∧
      it.line_total = t.2.2 := by
  intro nid prep
  induction prep generalizing nid with
  | nil => intro it hit; cases hit
  | cons t rest ih =>
    intro it hit
    rcases List.mem_cons.mp hit with rfl | hmem
    · exact ⟨t, List.mem_cons_self _ _, rfl, rfl, rfl⟩
    · obtain ⟨t', ht', hfields⟩ := ih (nid + 1) it hmem
      exact ⟨t', List.mem_cons_of_mem _ ht', hfields⟩

theorem mkItems_map_line_total (oid : Nat) :
    ∀ (nid : Nat) (prep : List (Product × Int × Int)),
    (mkItems oid nid prep).map (fun it => it.line_total)
      = prep.map (fun t => t.2.2) := by
  intro nid prep
  induction prep generalizing nid with
  | nil => rfl
  | cons t rest ih => simp [mkItems, ih (nid + 1)]

theorem findQty_eq (prods : List Product) :
    ∀ {prep : List (Product × Int × Int)} {items : List CartItem},
    List.Forall₂ (LineRel prods) prep items → ∀ pid : Nat,
    Option.map (fun t => t.2.1) (prep.find? (fun t => t.1.id == pid))
      = Option.map (fun i => i.quantity)
          (items.find? (fun i => i.product_id == pid)) := by
  intro prep items hf
  induction hf with
  | nil => intro pid; rfl
  | @cons t i prepTail itemsTail hrel hrest ih =>
    intro pid
    have hid : t.1.id = i.product_id := (lineRel_props hrel).2.1
    by_cases hp : i.product_id = pid
    · rw [List.find?_cons_of_pos _ (by simp [hid, hp]),
        List.find?_cons_of_pos _ (by simpa using hp)]
      simp [(lineRel_props hrel).2.2.1]
    · rw [List.find?_cons_of_neg _ (by simp [hid, hp]),
        List.find?_cons_of_neg _ (by simpa using hp)]
      exact ih pid

theorem decrementStock_eq_map (prods : List Product)
    {prep : List (Product × Int × Int)} {items : List CartItem}
    (hf : List.Forall₂ (LineRel prods) prep items) (ps : List Product) :
    decrementStock prep ps
      = ps.map (fun p => { p with stock := p.stock - qtyFor items p.id }) := by
  have hpt : ∀ p : Product,
      (match prep.find? (fun t => t.1.id == p.id) with
       | some t => { p with stock := p.stock - t.2.1 }
       | none => p)
      = { p with stock := p.stock - qtyFor items p.id } := by
    intro p
    have h := findQty_eq prods hf p.id
    cases hp : prep.find? (fun t => t.1.id == p.id) with
    | some t =>
      rw [hp] at h
      cases hi : items.find? (fun i => i.product_id == p.id) with
      | some i =>
        rw [hi] at h
        simp only [Option.map_some'] at h
        simp only [qtyFor, hi]
        rw [Option.some.injEq] at h
        rw [h]
      | none => rw [hi] at h; cases h
    | none =>
      rw [hp] at h
      cases hi : items.find? (fun i => i.product_id == p.id) with
      | some i => rw [hi] at h; cases h
      | none =>
        simp only [qtyFor, hi, Int.sub_zero]
  unfold decrementStock
  induction ps with
  | nil => rfl
  | cons p rest ih => simp only [List.map_cons, hpt p, List.map] at ih ⊢; rw [ih]

theorem qtyFor_le_stock {db : DB} (hn : ProductIdsNodup db) {pids : List Nat}
    {prep : List (Product × Int × Int)} {items : List CartItem}
    (hf : List.Forall₂ (LineRel (lockActiveProducts db pids)) prep items)
    (p : Product) (hp : p ∈ db.products) :
    qtyFor items p.id = 0 ∨ qtyFor items p.id ≤ p.stock := by
  cases hi : items.find? (fun i => i.product_id == p.id) with
  | none => exact Or.inl (by simp [qtyFor, hi])
  | some i =>
    right
    have h := findQty_eq (lockActiveProducts db pids) hf p.id
    rw [hi] at h
    cases hpr : prep.find? (fun t => t.1.id == p.id) with
    | none => rw [hpr] at h; cases h
    | some t =>
      rw [hpr] at h
      simp only [Option.map_some', Option.some.injEq] at h
      have htid : t.1.id = p.id := by
        have := List.find?_some hpr
        simpa using this
      have htmem := List.mem_of_find?_eq_some hpr
      obtain ⟨i', hi', hrel⟩ := forall₂_mem_left hf t htmem
      obtain ⟨hmemLock, _, hq, _, hstk⟩ := lineRel_props hrel
      have hpdb : t.1 ∈ db.products := (lockActive_mem_pids db pids t.1 hmemLock).2
      have : t.1 = p := List.inj_on_of_nodup_map hn hpdb hp htid
      have hq2 : qtyFor items p.id = t.2.1 := by simp [qtyFor, hi, h]
      rw [hq2, hq, ← this]
      exact hstk

theorem find?_append_of_none {α : Type} {l1 l2 : List α} {p : α → Bool}
    (h : l1.find? p = none) : (l1 ++ l2).find? p = l2.find? p := by
  induction l1 with
  | nil => rfl
  | cons a rest ih =>
    rw [List.find?_cons] at h
    split at h
    · cases h
    · next hp =>
      rw [List.cons_append, List.find?_cons]
      split
    -- the head still fails the predicate in the appended list
      · next hp2 => rw [hp2] at hp; cases hp
      · exact ih h

theorem coverage_find? {db : DB} {items : List CartItem}
    (hn : ProductIdsNodup db)
    (hlen : (lockActiveProducts db (items.map (fun i => i.product_id))).length
      = (items.map (fun i => i.product_id)).length) :
    ∀ i ∈ items, ∃ p,
      (lockActiveProducts db (items.map (fun i => i.product_id))).find?
        (fun q => q.id == i.product_id) = some p := by
  intro i hi
  have hx : i.product_id ∈ items.map (fun i => i.product_id) :=
    List.mem_map_of_mem _ hi
  obtain ⟨p, hp, hpid⟩ :=
    lockActive_coverage db (items.map (fun i => i.product_id)) hn hlen
      i.product_id hx
  have hfind := find?_id_of_mem _ (lockActive_nodup db _ hn) p hp
  rw [hpid] at hfind
  exact ⟨p, hfind⟩

theorem createInner_insufficient {db : DB} {u : Nat} {key : Option String}
    {items : List CartItem} {ship bill : AddressIn} {cur : String}
    (hn : ProductIdsNodup db)
    (hmiss : idemLookup db u key = none)
    (hlen : (lockActiveProducts db (items.map (fun i => i.product_id))).length
      = (items.map (fun i => i.product_id)).length)
    (hbad : ∃ i ∈ items,
      ∃ p ∈ lockActiveProducts db (items.map (fun i => i.product_id)),
        p.id = i.product_id ∧ p.stock < i.quantity) :
    ∃ s, createInner db u key items ship bill cur
      = .error (.insufficientStock s) := by
  have hcov := coverage_find? hn hlen
  have hbad' : ∃ i ∈ items, ∃ p,
      (lockActiveProducts db (items.map (fun i => i.product_id))).find?
        (fun q => q.id == i.product_id) = some p ∧ p.stock < i.quantity := by
    obtain ⟨i, hi, p, hp, hpid, hs⟩ := hbad
    have hfind := find?_id_of_mem _ (lockActive_nodup db _ hn) p hp
    rw [hpid] at hfind
    exact ⟨i, hi, p, hfind, hs⟩
  obtain ⟨s, hs⟩ := buildLines_stockError _ items hcov hbad'
  refine ⟨s, ?_⟩
  simp only [createInner, hmiss, if_neg (not_ne_iff.mpr hlen), hs]

/-- C1: for every successful order creation (a creation proper, not an
idempotency replay), each persisted line's `line_total` is the snapshotted
unit price times the requested quantity (the `quantize` to two decimals in
the source is exact on cent amounts), the order's `subtotal` is the sum of
its lines' totals, `tax_total` is `round(subtotal * 0.16, 2)` (half-even, in
cents: `divHalfEven (subtotal * 16) 100`), `shipping_total` is 5.00 below
the 100.00 subtotal threshold and 0.00 otherwise, `discount_total` is zero,
and `grand_total = subtotal - discount_total + tax_total + shipping_total`
(the final rounding is exact on cents). -/
theorem c1_order_totals
    (db : DB) (u : Nat) (key : Option String) (items : List CartItem)
    (ship bill : AddressIn) (cur : String) (db' : DB) (o : Order)
    (hfresh : FreshIds db)
    (hmiss : idemLookup db u key = none)
    (h : createOrderEndpoint db u key items ship bill cur = (db', .ok o)) :
    (∀ it ∈ db'.orderItems.filter (fun it => it.order == o.id),
        it.line_total = it.unit_price * it.quantity) ∧
    o.subtotal = ((db'.orderItems.filter (fun it => it.order == o.id)).map
        (fun it => it.line_total)).sum ∧
    o.tax_total = divHalfEven (o.subtotal * 16) 100 ∧
    o.shipping_total = (if o.subtotal < 10000 then (500 : Int) else 0) ∧
    o.discount_total = 0 ∧
    o.grand_total = o.subtotal - o.discount_total + o.tax_total
      + o.shipping_total := by
  obtain ⟨hv, hci⟩ := endpoint_ok_inv h
  rcases createInner_ok_cases hci with ⟨hid, _⟩ |
    ⟨_, prep, subtotal, hlen, hb, hconf, hfin⟩
  · rw [hmiss] at hid; cases hid
  · have h2 : (finishCreate db u (keyTruthy key) ship bill cur prep
        subtotal).2 = o := by rw [hfin]
    have h1 : (finishCreate db u (keyTruthy key) ship bill cur prep
        subtotal).1 = db' := by rw [hfin]
    obtain ⟨hsub, hdisc, htax, hshipv, hgrand, hoid, _, _, _, hitems, _⟩ :=
      finishCreate_spec db u (keyTruthy key) ship bill cur prep subtotal
    rw [h2] at hsub hdisc htax hshipv hgrand hoid
    rw [h1] at hitems
    have hfilter : db'.orderItems.filter (fun it => it.order == o.id)
        = mkItems (db.nextId + 2) (db.nextId + 3) prep := by
      rw [hitems, List.filter_append]
      have hold : db.orderItems.filter (fun it => it.order == o.id) = [] := by
        rw [List.filter_eq_nil_iff]
        intro it hit
        have := hfresh it hit
        simp only [beq_iff_eq, hoid]
        omega
      have hnew : (mkItems (db.nextId + 2) (db.nextId + 3) prep).filter
          (fun it => it.order == o.id)
          = mkItems (db.nextId + 2) (db.nextId + 3) prep := by
        rw [List.filter_eq_self]
        intro it hit
        have := mkItems_order_eq (db.nextId + 2) (db.nextId + 3) prep it hit
        simp [this, hoid]
      rw [hold, hnew, List.nil_append]
    obtain ⟨hsum, hrel⟩ := buildLines_ok _ items prep subtotal hb
    refine ⟨?_, ?_, by rw [htax, hsub], by rw [hshipv, hsub], hdisc, ?_⟩
    · intro it hit
      rw [hfilter] at hit
      obtain ⟨t, ht, hup, hq, hlt⟩ := mkItems_fields _ _ prep it hit
      obtain ⟨i, _, hrel'⟩ := forall₂_mem_left hrel t ht
      obtain ⟨_, _, hq', hl', _⟩ := lineRel_props hrel'
      rw [hlt, hl', hup, hq, hq']
    · rw [hfilter, mkItems_map_line_total, hsub, hsum]
    · rw [hgrand, hsub, hdisc, htax, hshipv]

/-- Witness for C1 at the worked example of the specification: cart
[(A, qty 2, price 10.00), (B, qty 1, price 5.00)] on stocks 5 and 5 yields
subtotal 25.00, tax 4.00, shipping 5.00, grand total 34.00, and stocks 3
and 4 afterwards. -/
theorem c1_order_totals_witness :
    FreshIds exDB ∧ idemLookup exDB 7 none = none ∧
    createOrderEndpoint exDB 7 none exCart exAddr exAddr "USD"
      = (exDB1, .ok exOrder1) ∧
    exOrder1.subtotal = 2500 ∧ exOrder1.tax_total = 400 ∧
    exOrder1.shipping_total = 500 ∧ exOrder1.grand_total = 3400 ∧
    exDB1.products.map (fun p => p.stock) = [3, 4] ∧
    ((∀ it ∈ exDB1.orderItems.filter (fun it => it.order == exOrder1.id),
        it.line_total = it.unit_price * it.quantity) ∧
     exOrder1.subtotal
       = ((exDB1.orderItems.filter (fun it => it.order == exOrder1.id)).map
           (fun it => it.line_total)).sum ∧
     exOrder1.tax_total = divHalfEven (exOrder1.subtotal * 16) 100 ∧
     exOrder1.shipping_total
       = (if exOrder1.subtotal < 10000 then (500 : Int) else 0) ∧
     exOrder1.discount_total = 0 ∧
     exOrder1.grand_total = exOrder1.subtotal - exOrder1.discount_total
       + exOrder1.tax_total + exOrder1.shipping_total) :=
  ⟨by intro it hit; simp [exDB] at hit, rfl, rfl, rfl, rfl, rfl, rfl, rfl,
   c1_order_totals exDB 7 none exCart exAddr exAddr "USD" exDB1 exOrder1
     (by intro it hit; simp [exDB] at hit) rfl rfl⟩

/-- C2: with the product-set check passed, order creation fails with a stock
error whenever some requested line's quantity exceeds its product's current
stock; on every successful creation proper (no idempotency replay) each
referenced product's stock is decremented by exactly the purchased quantity,
all other products are untouched, and stocks that were nonnegative stay
nonnegative. -/
theorem c2_stock_guard
    (db : DB) (u : Nat) (key : Option String) (items : List CartItem)
    (ship bill : AddressIn) (cur : String)
    (hn : ProductIdsNodup db)
    (hmiss : idemLookup db u key = none) :
    (validateCart items = .ok () →
      (lockActiveProducts db (items.map (fun i => i.product_id))).length
        = (items.map (fun i => i.product_id)).length →
      (∃ i ∈ items,
        ∃ p ∈ lockActiveProducts db (items.map (fun i => i.product_id)),
          p.id = i.product_id ∧ p.stock < i.quantity) →
      ∃ s, createOrderEndpoint db u key items ship bill cur
        = (db, .error (.insufficientStock s))) ∧
    (∀ db' o, createOrderEndpoint db u key items ship bill cur
        = (db', .ok o) →
      db'.products = db.products.map
        (fun p => { p with stock := p.stock - qtyFor items p.id }) ∧
      ((∀ p ∈ db.products, 0 ≤ p.stock) → ∀ p ∈ db'.products, 0 ≤ p.stock)) := by
  constructor
  · intro hv hlen hbad
    obtain ⟨s, hs⟩ :=
      @createInner_insufficient db u key items ship bill cur hn hmiss hlen hbad
    exact ⟨s, by simp only [createOrderEndpoint, hv, hs]⟩
  · intro db' o h
    obtain ⟨hv, hci⟩ := endpoint_ok_inv h
    rcases createInner_ok_cases hci with ⟨hid, _⟩ |
      ⟨_, prep, subtotal, hlen, hb, hconf, hfin⟩
    · rw [hmiss] at hid; cases hid
    · have h1 : (finishCreate db u (keyTruthy key) ship bill cur prep
          subtotal).1 = db' := by rw [hfin]
      obtain ⟨_, _, _, _, _, _, _, _, _, _, hprod⟩ :=
        finishCreate_spec db u (keyTruthy key) ship bill cur prep subtotal
      rw [h1] at hprod
      obtain ⟨_, hrel⟩ := buildLines_ok _ items prep subtotal hb
      have hmap := decrementStock_eq_map _ hrel db.products
      refine ⟨by rw [hprod, hmap], ?_⟩
      intro hpos p' hp'
      rw [hprod, hmap] at hp'
      obtain ⟨p, hp, rfl⟩ := List.mem_map.mp hp'
      rcases qtyFor_le_stock hn hrel p hp with hz | hle
      · simp only [hz, Int.sub_zero]
        exact hpos p hp
      · have := hpos p hp
        simp only
        omega

/-- Witness for C2: requesting 99 of product A (stock 5) fails with a stock
error and leaves the store unchanged, while the worked example decrements
the stocks by exactly the purchased quantities. -/
theorem c2_stock_guard_witness :
    ProductIdsNodup exDB ∧ idemLookup exDB 7 none = none ∧
    (∃ s, createOrderEndpoint exDB 7 none [⟨1, 99⟩] exAddr exAddr "USD"
      = (exDB, .error (.insufficientStock s))) ∧
    (exDB1.products = exDB.products.map
      (fun p => { p with stock := p.stock - qtyFor exCart p.id }) ∧
     ((∀ p ∈ exDB.products, 0 ≤ p.stock) → ∀ p ∈ exDB1.products, 0 ≤ p.stock)) :=
  ⟨by decide, rfl,
   (c2_stock_guard exDB 7 none [⟨1, 99⟩] exAddr exAddr "USD"
      (by decide) rfl).1 rfl rfl
     ⟨⟨1, 99⟩, by decide, ⟨1, "A", 1000, 5, true⟩, by decide, by decide⟩,
   (c2_stock_guard exDB 7 none exCart exAddr exAddr "USD"
      (by decide) rfl).2 exDB1 exOrder1 rfl⟩

/-- C3: order creation is all-or-nothing.  Whenever the endpoint reports an
error the returned store is exactly the store it started from (no Order,
OrderItem or Address row survives and no stock changes), and each failure
class surfaces as a structured error: an empty cart, an invalid or inactive
product set, and an insufficient-stock line all end in an error. -/
theorem c3_atomic_rollback
    (db : DB) (u : Nat) (key : Option String) (items : List CartItem)
    (ship bill : AddressIn) (cur : String) :
    (∀ e, (createOrderEndpoint db u key items ship bill cur).2 = .error e →
      (createOrderEndpoint db u key items ship bill cur).1 = db) ∧
    (items = [] →
      (createOrderEndpoint db u key items ship bill cur).2
        = .error .emptyCart) ∧
    (validateCart items = .ok () → idemLookup db u key = none →
      (lockActiveProducts db (items.map (fun i => i.product_id))).length
        ≠ (items.map (fun i => i.product_id)).length →
      (createOrderEndpoint db u key items ship bill cur).2
        = .error .invalidItems) ∧
    (validateCart items = .ok () → idemLookup db u key = none →
      ProductIdsNodup db →
      (lockActiveProducts db (items.map (fun i => i.product_id))).length
        = (items.map (fun i => i.product_id)).length →
      (∃ i ∈ items,
        ∃ p ∈ lockActiveProducts db (items.map (fun i => i.product_id)),
          p.id = i.product_id ∧ p.stock < i.quantity) →
      ∃ s, (createOrderEndpoint db u key items ship bill cur).2
        = .error (.insufficientStock s)) := by
  refine ⟨fun e he => endpoint_error_db he, ?_, ?_, ?_⟩
  · intro hempty
    subst hempty
    simp [createOrderEndpoint, validateCart]
  · intro hv hmiss hne
    have hci : createInner db u key items ship bill cur
        = .error .invalidItems := by
      simp only [createInner, hmiss, if_pos hne]
    simp only [createOrderEndpoint, hv, hci]
  · intro hv hmiss hn hlen hbad
    obtain ⟨s, hs⟩ :=
      @createInner_insufficient db u key items ship bill cur hn hmiss hlen hbad
    exact ⟨s, by simp only [createOrderEndpoint, hv, hs]⟩

/-- Witness for C3: the empty cart fails with the empty-cart error, an
unknown product id fails with the invalid-items error, and in both runs the
store is exactly the original one. -/
theorem c3_atomic_rollback_witness :
    (createOrderEndpoint exDB 7 none [] exAddr exAddr "USD").2
      = .error .emptyCart ∧
    (createOrderEndpoint exDB 7 none [] exAddr exAddr "USD").1 = exDB ∧
    (createOrderEndpoint exDB 7 none [⟨55, 1⟩] exAddr exAddr "USD").2
      = .error .invalidItems ∧
    (createOrderEndpoint exDB 7 none [⟨55, 1⟩] exAddr exAddr "USD").1
      = exDB :=
  ⟨(c3_atomic_rollback exDB 7 none [] exAddr exAddr "USD").2.1 rfl,
   (c3_atomic_rollback exDB 7 none [] exAddr exAddr "USD").1
     .emptyCart ((c3_atomic_rollback exDB 7 none [] exAddr exAddr "USD").2.1
     rfl),
   (c3_atomic_rollback exDB 7 none [⟨55, 1⟩] exAddr exAddr "USD").2.2.1
     rfl rfl (by decide),
   (c3_atomic_rollback exDB 7 none [⟨55, 1⟩] exAddr exAddr "USD").1
     .invalidItems
     ((c3_atomic_rollback exDB 7 none [⟨55, 1⟩] exAddr exAddr "USD").2.2.1
       rfl rfl (by decide))⟩

/-- C4: order creation is idempotent under an idempotency key.  If a call
that supplied a (non-empty) key succeeded, replaying the identical call on
the resulting store returns the very same order and leaves the store
untouched — whether the first call was itself a fresh creation (the replay
finds the order the first call persisted with that key) or already a replay.
In particular two calls with the same key and user return the same order id
and create no duplicate Order, OrderItem or Address rows. -/
theorem c4_idempotent
    (db : DB) (u : Nat) (k : String) (items : List CartItem)
    (ship bill : AddressIn) (cur : String) (db1 : DB) (o : Order)
    (hk : k ≠ "")
    (h : createOrderEndpoint db u (some k) items ship bill cur
      = (db1, .ok o)) :
    createOrderEndpoint db1 u (some k) items ship bill cur = (db1, .ok o) := by
  obtain ⟨hv, hci⟩ := endpoint_ok_inv h
  have hkt : keyTruthy (some k) = some k := by simp [keyTruthy, hk]
  rcases createInner_ok_cases hci with ⟨hid, rfl⟩ |
    ⟨hid, prep, subtotal, hlen, hb, hconf, hfin⟩
  · exact h
  · have h2 : (finishCreate db u (keyTruthy (some k)) ship bill cur prep
        subtotal).2 = o := by rw [hfin]
    have h1 : (finishCreate db u (keyTruthy (some k)) ship bill cur prep
        subtotal).1 = db1 := by rw [hfin]
    obtain ⟨_, _, _, _, _, _, huser, hkey, horders, _, _⟩ :=
      finishCreate_spec db u (keyTruthy (some k)) ship bill cur prep subtotal
    rw [h2] at huser hkey
    rw [h1, h2] at horders
    rw [hkt] at hkey
    have hanyf : db.orders.any
        (fun o' => o'.idempotency_key == some k) = false := by
      have hc := hconf
      rw [hkt] at hc
      simpa [insertConflict] using hc
    have hfnone : db.orders.find?
        (fun o' => o'.idempotency_key == some k && o'.user == u) = none := by
      rw [List.find?_eq_none]
      intro o' ho'
      have hnk := List.any_eq_false.mp hanyf o' ho'
      simp only [Bool.not_eq_true] at hnk
      simp [hnk]
    have hlook : idemLookup db1 u (some k) = some o := by
      simp only [idemLookup, hkt, horders]
      rw [find?_append_of_none hfnone]
      simp [List.find?_cons, hkey, huser]
    have hci2 : createInner db1 u (some k) items ship bill cur
        = .ok (db1, o) := by
      simp only [createInner, hlook]
    simp only [createOrderEndpoint, hv, hci2]

/-- Witness for C4: creating the example order with key r1 and then
replaying the identical request returns the same order id 102 and the
unchanged store. -/
theorem c4_idempotent_witness :
    ("r1" : String) ≠ "" ∧
    createOrderEndpoint exDB 7 (some "r1") exCart exAddr exAddr "USD"
      = (exDBr, .ok exOrderR) ∧
    createOrderEndpoint exDBr 7 (some "r1") exCart exAddr exAddr "USD"
      = (exDBr, .ok exOrderR) :=
  ⟨by decide, rfl,
   c4_idempotent exDB 7 "r1" exCart exAddr exAddr "USD" exDBr exOrderR
     (by decide) rfl⟩

/-- C5 counterexample: a cart listing the same valid active product twice.
Every distinct requested product id (there is one, id 1) refers to an
existing active product — the number of distinct active products found
equals the number of distinct requested ids — yet the endpoint raises the
invalid-items error, because the source compares the distinct count against
the raw number of cart lines (`len(product_ids)` counts duplicates). -/
theorem c5_counterexample :
    (createOrderEndpoint exDB 1 none [⟨1, 1⟩, ⟨1, 1⟩] exAddr exAddr
      "USD").2 = .error .invalidItems ∧
    (([⟨1, 1⟩, ⟨1, 1⟩] : List CartItem).map
        (fun i => i.product_id)).dedup.length
      = (lockActiveProducts exDB (([⟨1, 1⟩, ⟨1, 1⟩] : List CartItem).map
          (fun i => i.product_id))).length ∧
    (∀ x ∈ (([⟨1, 1⟩, ⟨1, 1⟩] : List CartItem).map
        (fun i => i.product_id)).dedup,
      ∃ p ∈ exDB.products, p.id = x ∧ p.is_active = true) :=
  ⟨rfl, rfl, by decide⟩

/-- C5 amended: once validation passed and no idempotency replay fires, the
invalid-items error is raised exactly when the number of distinct active
products found differs from the number of requested cart lines (duplicate
ids counted once on the left, per line on the right); in particular a
duplicate-free cart whose every product id refers to an existing active
product passes this check. -/
theorem c5_item_set_check
    (db : DB) (u : Nat) (key : Option String) (items : List CartItem)
    (ship bill : AddressIn) (cur : String)
    (hv : validateCart items = .ok ())
    (hmiss : idemLookup db u key = none) :
    ((createOrderEndpoint db u key items ship bill cur).2
        = .error .invalidItems ↔
      (lockActiveProducts db (items.map (fun i => i.product_id))).length
        ≠ items.length) ∧
    (ProductIdsNodup db →
      (items.map (fun i => i.product_id)).Nodup →
      (∀ x ∈ items.map (fun i => i.product_id),
        ∃ p ∈ db.products, p.id = x ∧ p.is_active = true) →
      (createOrderEndpoint db u key items ship bill cur).2
        ≠ .error .invalidItems) := by
  have hiff : (createOrderEndpoint db u key items ship bill cur).2
      = .error .invalidItems ↔
      (lockActiveProducts db (items.map (fun i => i.product_id))).length
        ≠ items.length := by
    constructor
    · intro herr
      by_contra hlen'
      have hlen : (lockActiveProducts db
          (items.map (fun i => i.product_id))).length
          = (items.map (fun i => i.product_id)).length := by
        rw [hlen', List.length_map]
      rcases hbl : buildLines
          (lockActiveProducts db (items.map (fun i => i.product_id))) items
          with e | ⟨prep, sub⟩
      · have hci : createInner db u key items ship bill cur = .error e := by
          simp only [createInner, hmiss, if_neg (not_ne_iff.mpr hlen), hbl]
        simp only [createOrderEndpoint, hv, hci, Except.error.injEq] at herr
        rcases buildLines_error _ items e hbl with rfl | ⟨s, rfl⟩ <;>
          cases herr
      · by_cases hc : insertConflict db (keyTruthy key) = true
        · have hci : createInner db u key items ship bill cur
              = .error .integrityError := by
            simp only [createInner, hmiss, if_neg (not_ne_iff.mpr hlen), hbl,
              if_pos hc]
          simp only [createOrderEndpoint, hv, hci, Except.error.injEq] at herr
          cases herr
        · have hci : createInner db u key items ship bill cur
              = .ok (finishCreate db u (keyTruthy key) ship bill cur prep
                sub) := by
            simp only [createInner, hmiss, if_neg (not_ne_iff.mpr hlen), hbl,
              if_neg hc]
          simp only [createOrderEndpoint, hv, hci] at herr
          cases herr
    · intro hne
      have hnep : (lockActiveProducts db
          (items.map (fun i => i.product_id))).length
          ≠ (items.map (fun i => i.product_id)).length := by
        rw [List.length_map]
        exact hne
      have hci : createInner db u key items ship bill cur
          = .error .invalidItems := by
        simp only [createInner, hmiss, if_pos hnep]
      simp only [createOrderEndpoint, hv, hci]
  refine ⟨hiff, ?_⟩
  intro hn hnodup hactive
  have hn2 := lockActive_nodup db (items.map (fun i => i.product_id)) hn
  have htf : ((lockActiveProducts db
      (items.map (fun i => i.product_id))).map
        (fun p => p.id)).toFinset
      = (items.map (fun i => i.product_id)).toFinset := by
    apply Finset.Subset.antisymm
    · intro y hy
      rw [List.mem_toFinset] at hy
      obtain ⟨p, hp, rfl⟩ := List.mem_map.mp hy
      exact List.mem_toFinset.mpr (lockActive_mem_pids db _ p hp).1
    · intro x hx
      rw [List.mem_toFinset] at hx
      obtain ⟨p, hpdb, hpid, hact⟩ := hactive x hx
      have hpin : p ∈ lockActiveProducts db
          (items.map (fun i => i.product_id)) := by
        rw [lockActiveProducts, List.mem_filter]
        refine ⟨hpdb, ?_⟩
        simp only [Bool.and_eq_true]
        exact ⟨by simp [hpid, hx], hact⟩
      exact List.mem_toFinset.mpr (List.mem_map.mpr ⟨p, hpin, hpid⟩)
  have hlen : (lockActiveProducts db
      (items.map (fun i => i.product_id))).length = items.length := by
    have e1 : (lockActiveProducts db
        (items.map (fun i => i.product_id))).length
        = ((lockActiveProducts db (items.map (fun i => i.product_id))).map
            (fun p => p.id)).toFinset.card := by
      rw [List.toFinset_card_of_nodup hn2, List.length_map]
    have e2 : (items.map (fun i => i.product_id)).toFinset.card
        = items.length := by
      rw [List.toFinset_card_of_nodup hnodup, List.length_map]
    rw [e1, htf, e2]
  intro herr
  exact (hiff.mp herr) hlen

/-- Witness for the amended C5: the duplicate-free two-line example cart is
accepted by the item-set check, and on the duplicated-line cart the iff
certifies the invalid-items error. -/
theorem c5_item_set_check_witness :
    ((createOrderEndpoint exDB 1 none [⟨1, 1⟩, ⟨1, 1⟩] exAddr exAddr
        "USD").2 = .error .invalidItems ↔
      (lockActiveProducts exDB (([⟨1, 1⟩, ⟨1, 1⟩] : List CartItem).map
          (fun i => i.product_id))).length
        ≠ ([⟨1, 1⟩, ⟨1, 1⟩] : List CartItem).length) ∧
    (createOrderEndpoint exDB 7 none exCart exAddr exAddr "USD").2
      ≠ .error .invalidItems :=
  ⟨(c5_item_set_check exDB 1 none [⟨1, 1⟩, ⟨1, 1⟩] exAddr exAddr "USD"
      rfl rfl).1,
   (c5_item_set_check exDB 7 none exCart exAddr exAddr "USD" rfl rfl).2
     (by decide) (by decide) (by decide)⟩

/-- C6 counterexample: the single payment has current status SUCCESS (the
success state of the payment enum), yet the admin target REFUNDED is
rejected with 400 and both records are left unchanged — the source accepts a
refund only when the stored status is the exact literal PAID, contradicting
the claim that SUCCESS is refundable. -/
theorem c6_counterexample :
    exPayDB.payments.map (fun p => p.status) = ["SUCCESS"] ∧
    adminPaymentUpdate exPayDB (some 1) (some "REFUNDED")
      = (exPayDB,
         ⟨400, "Cannot refund a payment that is not already PAID."⟩) :=
  ⟨rfl, rfl⟩

/-- C6 amended: the admin payment-status update accepts only the exact
targets PAID and REFUNDED — a missing or zero order id, a missing or empty
status, a failed lookup, or any other target value is rejected with an error
and the store unchanged; REFUNDED is rejected, with both records unchanged,
whenever the payment's current status is not the exact literal PAID (so in
particular when it is PENDING, FAILED, or SUCCESS), and accepted exactly
when the current status is PAID. -/
theorem c6_admin_status_rules (db : PayDB) (order_id : Option Nat)
    (status_value : Option String) :
    (truthyNat order_id = none ∨ keyTruthy status_value = none →
      adminPaymentUpdate db order_id status_value
        = (db, ⟨400, "order_id and status are required."⟩)) ∧
    (∀ n s, truthyNat order_id = some n → keyTruthy status_value = some s →
      (db.orders.find? (fun o => o.id == n) = none ∨
       db.payments.find? (fun p => p.order == n) = none) →
      adminPaymentUpdate db order_id status_value
        = (db, ⟨404, "Order or payment not found."⟩)) ∧
    (∀ n s o p, truthyNat order_id = some n →
      keyTruthy status_value = some s →
      db.orders.find? (fun o2 => o2.id == n) = some o →
      db.payments.find? (fun p2 => p2.order == n) = some p →
      s ≠ "PAID" → s ≠ "REFUNDED" →
      adminPaymentUpdate db order_id status_value
        = (db, ⟨400, "Status must be either PAID or REFUNDED."⟩)) ∧
    (∀ n o p, truthyNat order_id = some n →
      keyTruthy status_value = some "REFUNDED" →
      db.orders.find? (fun o2 => o2.id == n) = some o →
      db.payments.find? (fun p2 => p2.order == n) = some p →
      p.status ≠ "PAID" →
      adminPaymentUpdate db order_id status_value
        = (db,
           ⟨400, "Cannot refund a payment that is not already PAID."⟩)) ∧
    (∀ n o p, truthyNat order_id = some n →
      keyTruthy status_value = some "REFUNDED" →
      db.orders.find? (fun o2 => o2.id == n) = some o →
      db.payments.find? (fun p2 => p2.order == n) = some p →
      p.status = "PAID" →
      (adminPaymentUpdate db order_id status_value).2.code = 200) := by
  refine ⟨?_, ?_, ?_, ?_, ?_⟩
  · intro hmissing
    rcases hmissing with hno | hns
    · cases hks : keyTruthy status_value <;>
        simp only [adminPaymentUpdate, hno, hks]
    · cases hkn : truthyNat order_id <;>
        simp only [adminPaymentUpdate, hkn, hns]
  · intro n s hn hs hmiss
    rcases hmiss with hfo | hfp
    · cases hfp : db.payments.find? (fun p => p.order == n) <;>
        simp only [adminPaymentUpdate, hn, hs, hfo, hfp]
    · cases hfo : db.orders.find? (fun o => o.id == n) <;>
        simp only [adminPaymentUpdate, hn, hs, hfo, hfp]
  · intro n s o p hn hs hfo hfp hsp hsr
    simp only [adminPaymentUpdate, hn, hs, hfo, hfp,
      if_pos (And.intro hsp hsr)]
  · intro n o p hn hs hfo hfp hps
    have hcond : ¬ (("REFUNDED" : String) ≠ "PAID" ∧
        ("REFUNDED" : String) ≠ "REFUNDED") := by simp
    simp only [adminPaymentUpdate, hn, hs, hfo, hfp, if_neg hcond]
    rw [if_pos (And.intro trivial hps)]
  · intro n o p hn hs hfo hfp hps
    have hcond : ¬ (("REFUNDED" : String) ≠ "PAID" ∧
        ("REFUNDED" : String) ≠ "REFUNDED") := by simp
    simp only [adminPaymentUpdate, hn, hs, hfo, hfp, if_neg hcond]
    rw [if_neg (by simp [hps])]

/-- Witness for the amended C6: refunding the SUCCESS payment is rejected
with 400, an unknown status target is rejected with 400, a bad order id
yields 404, a missing body yields 400, and refunding a payment whose status
is the literal PAID succeeds with 200. -/
theorem c6_admin_status_rules_witness :
    adminPaymentUpdate exPayDB (some 1) (some "REFUNDED")
      = (exPayDB,
         ⟨400, "Cannot refund a payment that is not already PAID."⟩) ∧
    adminPaymentUpdate exPayDB (some 1) (some "SHIPPED")
      = (exPayDB, ⟨400, "Status must be either PAID or REFUNDED."⟩) ∧
    adminPaymentUpdate exPayDB (some 5) (some "PAID")
      = (exPayDB, ⟨404, "Order or payment not found."⟩) ∧
    adminPaymentUpdate exPayDB none (some "PAID")
      = (exPayDB, ⟨400, "order_id and status are required."⟩) ∧
    (adminPaymentUpdate exPayDB7 (some 1) (some "PAID")).2.code = 200 :=
  ⟨(c6_admin_status_rules exPayDB (some 1) (some "REFUNDED")).2.2.2.1
     1 ⟨1, 2, "ORD-1", "PAID", "USD", 2500, 0, 400, 500, 3400, none, 0, 0⟩
     ⟨1, 1, 2, 3400, "USD", "SUCCESS", "", none⟩ rfl rfl rfl rfl
     (by decide),
   (c6_admin_status_rules exPayDB (some 1) (some "SHIPPED")).2.2.1
     1 "SHIPPED"
     ⟨1, 2, "ORD-1", "PAID", "USD", 2500, 0, 400, 500, 3400, none, 0, 0⟩
     ⟨1, 1, 2, 3400, "USD", "SUCCESS", "", none⟩ rfl rfl rfl rfl
     (by decide) (by decide),
   (c6_admin_status_rules exPayDB (some 5) (some "PAID")).2.1
     5 "PAID" rfl rfl (Or.inl rfl),
   (c6_admin_status_rules exPayDB none (some "PAID")).1 (Or.inl rfl),
   rfl⟩

/-- C7: every accepted payment-status transition updates the linked order in
the same operation: `mark_successful` sets the payment to SUCCESS and forces
the linked order to PAID, and whenever the admin update replies 200 the
target status has been written onto both the payment linked to the order and
every matching order row of the new store. -/
theorem c7_status_sync :
    (∀ (p : Payment) (o : Order) (txn raw : Option String),
      (markSuccessful p o txn raw).1.status = "SUCCESS" ∧
      (markSuccessful p o txn raw).2.status = "PAID") ∧
    (∀ (db : PayDB) (order_id : Option Nat) (status_value : Option String)
        (db' : PayDB) (r : Response),
      adminPaymentUpdate db order_id status_value = (db', r) →
      r.code = 200 →
      ∃ n s, truthyNat order_id = some n ∧ keyTruthy status_value = some s ∧
        (∀ o ∈ db'.orders, o.id = n → o.status = s) ∧
        (∃ o ∈ db'.orders, o.id = n ∧ o.status = s) ∧
        (∃ p ∈ db'.payments, p.order = n ∧ p.status = s)) := by
  constructor
  · intro p o txn raw
    refine ⟨?_, rfl⟩
    cases txn with
    | none =>
      cases raw with
      | none => rfl
      | some r => by_cases hr : r = "" <;> simp [markSuccessful, hr]
    | some t =>
      cases raw with
      | none => by_cases ht : t = "" <;> simp [markSuccessful, ht]
      | some r =>
        by_cases ht : t = "" <;> by_cases hr : r = "" <;>
          simp [markSuccessful, ht, hr]
  · intro db order_id status_value db' r h h200
    cases hn : truthyNat order_id with
    | none =>
      cases hs : keyTruthy status_value <;>
        · simp only [adminPaymentUpdate, hn, hs, Prod.mk.injEq] at h
          rw [← h.2] at h200
          cases h200
    | some n =>
      cases hs : keyTruthy status_value with
      | none =>
        simp only [adminPaymentUpdate, hn, hs, Prod.mk.injEq] at h
        rw [← h.2] at h200
        cases h200
      | some s =>
        cases hfo : db.orders.find? (fun o2 => o2.id == n) with
        | none =>
          cases hfp : db.payments.find? (fun p2 => p2.order == n) <;>
            · simp only [adminPaymentUpdate, hn, hs, hfo, hfp,
                Prod.mk.injEq] at h
              rw [← h.2] at h200
              cases h200
        | some o0 =>
          cases hfp : db.payments.find? (fun p2 => p2.order == n) with
          | none =>
            simp only [adminPaymentUpdate, hn, hs, hfo, hfp,
              Prod.mk.injEq] at h
            rw [← h.2] at h200
            cases h200
          | some p0 =>
            simp only [adminPaymentUpdate, hn, hs, hfo, hfp] at h
            split at h
            · simp only [Prod.mk.injEq] at h
              rw [← h.2] at h200
              cases h200
            · split at h
              · simp only [Prod.mk.injEq] at h
                rw [← h.2] at h200
                cases h200
              · simp only [Prod.mk.injEq] at h
                refine ⟨n, s, rfl, rfl, ?_, ?_, ?_⟩
                · intro o ho hoid
                  rw [← h.1] at ho
                  simp only [List.mem_map] at ho
                  obtain ⟨o2, _, rfl⟩ := ho
                  by_cases h2 : (o2.id == n) = true
                  · simp only [if_pos h2]
                  · rw [if_neg h2] at hoid ⊢
                    exact absurd (by simpa using hoid) (by simpa using h2)
                · have ho0 : o0 ∈ db.orders := List.mem_of_find?_eq_some hfo
                  have hid0 : (o0.id == n) = true := by
                    have := List.find?_some hfo
                    simpa using this
                  refine ⟨{ o0 with status := s }, ?_, by simpa using hid0,
                    rfl⟩
                  rw [← h.1]
                  refine List.mem_map.mpr ⟨o0, ho0, ?_⟩
                  rw [if_pos hid0]
                · have hp0 : p0 ∈ db.payments := List.mem_of_find?_eq_some hfp
                  have hord0 : (p0.order == n) = true := by
                    have := List.find?_some hfp
                    simpa using this
                  refine ⟨{ p0 with status := s }, ?_, by simpa using hord0,
                    rfl⟩
                  rw [← h.1]
                  refine List.mem_map.mpr ⟨p0, hp0, ?_⟩
                  rw [if_pos (by simp)]

/-- Witness for C7: marking the pending example payment successful yields
SUCCESS/PAID, and the accepted admin transition of the pending payment to
PAID writes PAID onto both rows. -/
theorem c7_status_sync_witness :
    ((markSuccessful ⟨1, 1, 2, 3400, "USD", "PENDING", "", none⟩
        ⟨1, 2, "ORD-1", "PENDING", "USD", 2500, 0, 400, 500, 3400, none, 0,
         0⟩ none none).1.status = "SUCCESS" ∧
     (markSuccessful ⟨1, 1, 2, 3400, "USD", "PENDING", "", none⟩
        ⟨1, 2, "ORD-1", "PENDING", "USD", 2500, 0, 400, 500, 3400, none, 0,
         0⟩ none none).2.status = "PAID") ∧
    (∃ n s, truthyNat (some 1) = some n ∧ keyTruthy (some "PAID") = some s ∧
      (∀ o ∈ (adminPaymentUpdate exPayDB7 (some 1) (some "PAID")).1.orders,
        o.id = n → o.status = s) ∧
      (∃ o ∈ (adminPaymentUpdate exPayDB7 (some 1) (some "PAID")).1.orders,
        o.id = n ∧ o.status = s) ∧
      (∃ p ∈ (adminPaymentUpdate exPayDB7 (some 1)
          (some "PAID")).1.payments, p.order = n ∧ p.status = s)) :=
  ⟨c7_status_sync.1 ⟨1, 1, 2, 3400, "USD", "PENDING", "", none⟩
     ⟨1, 2, "ORD-1", "PENDING", "USD", 2500, 0, 400, 500, 3400, none, 0, 0⟩
     none none,
   c7_status_sync.2 exPayDB7 (some 1) (some "PAID")
     (adminPaymentUpdate exPayDB7 (some 1) (some "PAID")).1
     (adminPaymentUpdate exPayDB7 (some 1) (some "PAID")).2 rfl rfl⟩

/-- C8: the password-reset request endpoint is observationally identical for
registered and unregistered addresses — for any email and any two user
tables (for example one containing the address and one not) the HTTP status
and body of the reply are the same, so the reply reveals nothing about
whether the email exists.  Only the email dispatch, which the caller does
not see, differs. -/
theorem c8_reset_no_enumeration (users1 users2 : List User)
    (email : String) :
    (resetRequestResponse users1 email).1
      = (resetRequestResponse users2 email).1 := by
  unfold resetRequestResponse
  cases users1.find? (fun u => u.email == email) <;>
    cases users2.find? (fun u => u.email == email) <;> rfl

/-- C9 evaluation at the failing input: deleting active product 1 (no order
items reference it) through the product endpoint returns 204 and the
Product row is physically gone from the table — the DRF default `destroy`
(no override in `ProductViewSet`) calls `instance.delete()`, it never sets
`is_active = False`, contradicting the claim and the endpoint's own schema
documentation of a soft delete. -/
theorem c9_hard_delete :
    (productDestroy exDB 1).2 = 204 ∧
    (exDB.products.filter (fun p => p.id == 1)).length = 1 ∧
    ((productDestroy exDB 1).1.products.filter
      (fun p => p.id == 1)).length = 0 ∧
    ((productDestroy exDB 1).1.products.filter
      (fun p => p.id == 1 && !p.is_active)).length = 0 :=
  ⟨rfl, rfl, rfl, rfl⟩

/-- C10: idempotency keys are globally unique.  The uniqueness invariant (at
most one order per non-null key) is preserved by every order-creation call;
and when an order of a different user already carries the supplied key, the
call neither returns that order nor persists anything — it always ends in an
error with the store unchanged, and on a request that passes every earlier
check the error is precisely the integrity error from the unique constraint,
not a validation error. -/
theorem c10_key_uniqueness :
    (∀ (db : DB) (u : Nat) (key : Option String) (items : List CartItem)
        (ship bill : AddressIn) (cur : String),
      UniqueKeys db →
      UniqueKeys (createOrderEndpoint db u key items ship bill cur).1) ∧
    (∀ (db : DB) (u : Nat) (k : String) (items : List CartItem)
        (ship bill : AddressIn) (cur : String) (o0 : Order),
      UniqueKeys db → o0 ∈ db.orders → o0.idempotency_key = some k →
      o0.user ≠ u → k ≠ "" →
      (∃ e, (createOrderEndpoint db u (some k) items ship bill cur).2
        = .error e) ∧
      (createOrderEndpoint db u (some k) items ship bill cur).1 = db ∧
      (validateCart items = .ok () →
       (lockActiveProducts db (items.map (fun i => i.product_id))).length
         = (items.map (fun i => i.product_id)).length →
       (∃ prep subtotal,
         buildLines (lockActiveProducts db
           (items.map (fun i => i.product_id))) items
           = .ok (prep, subtotal)) →
       (createOrderEndpoint db u (some k) items ship bill cur).2
         = .error .integrityError)) := by
  constructor
  · intro db u key items ship bill cur hU
    cases hv : validateCart items with
    | error e => simpa [createOrderEndpoint, hv] using hU
    | ok u' =>
      cases hc : createInner db u key items ship bill cur with
      | error e => simpa [createOrderEndpoint, hv, hc] using hU
      | ok res =>
        obtain ⟨db2, o⟩ := res
        have hgoal : UniqueKeys db2 := by
          rcases createInner_ok_cases hc with ⟨_, rfl⟩ |
            ⟨_, prep, subtotal, _, _, hconf, hfin⟩
          · exact hU
          · have h1 : (finishCreate db u (keyTruthy key) ship bill cur prep
                subtotal).1 = db2 := by rw [hfin]
            have h2 : (finishCreate db u (keyTruthy key) ship bill cur prep
                subtotal).2 = o := by rw [hfin]
            obtain ⟨_, _, _, _, _, _, _, hkey, horders, _, _⟩ :=
              finishCreate_spec db u (keyTruthy key) ship bill cur prep
                subtotal
            rw [h1, h2] at horders
            rw [h2] at hkey
            have hnoold : ∀ k', keyTruthy key = some k' →
                ∀ o' ∈ db.orders, o'.idempotency_key ≠ some k' := by
              intro k' hk' o' ho' hkeq
              have hc2 := hconf
              rw [insertConflict, hk'] at hc2
              simp only [Option.isSome_some, Bool.true_and,
                List.any_eq_false] at hc2
              exact hc2 o' ho' (by simp [hkeq])
            intro o1 h1m o2 h2m k' hk1 hk2
            rw [horders] at h1m h2m
            rcases List.mem_append.mp h1m with h1mL | h1mR
            · rcases List.mem_append.mp h2m with h2mL | h2mR
              · exact hU o1 h1mL o2 h2mL k' hk1 hk2
              · have he2 : o2 = o := List.mem_singleton.mp h2mR
                rw [he2, hkey] at hk2
                exact absurd hk1 (hnoold k' hk2 o1 h1mL)
            · rcases List.mem_append.mp h2m with h2mL | h2mR
              · have he1 : o1 = o := List.mem_singleton.mp h1mR
                rw [he1, hkey] at hk1
                exact absurd hk2 (hnoold k' hk1 o2 h2mL)
              · rw [List.mem_singleton.mp h1mR, List.mem_singleton.mp h2mR]
        simpa [createOrderEndpoint, hv, hc] using hgoal
  · intro db u k items ship bill cur o0 hU ho0 hk0 huser hk
    have hkt : keyTruthy (some k) = some k := by simp [keyTruthy, hk]
    have hmiss : idemLookup db u (some k) = none := by
      rw [idemLookup, hkt, List.find?_eq_none]
      intro o' ho' hpred
      simp only [Bool.and_eq_true, beq_iff_eq] at hpred
      have : o' = o0 := hU o' ho' o0 ho0 k hpred.1 hk0
      rw [this] at hpred
      exact huser hpred.2
    have hconf : insertConflict db (keyTruthy (some k)) = true := by
      rw [insertConflict, hkt]
      simp only [Option.isSome_some, Bool.true_and, List.any_eq_true]
      exact ⟨o0, ho0, by simp [hk0]⟩
    cases hv : validateCart items with
    | error e =>
      have he : (createOrderEndpoint db u (some k) items ship bill cur).2
          = .error e := by simp [createOrderEndpoint, hv]
      refine ⟨⟨e, he⟩, endpoint_error_db he, ?_⟩
      intro hv2
      cases hv2
    | ok u' =>
      obtain ⟨⟩ := u'
      by_cases hlen : (lockActiveProducts db
          (items.map (fun i => i.product_id))).length
          = (items.map (fun i => i.product_id)).length
      · cases hbl : buildLines
            (lockActiveProducts db (items.map (fun i => i.product_id)))
            items with
        | error e =>
          have hci : createInner db u (some k) items ship bill cur
              = .error e := by
            simp only [createInner, hmiss, if_neg (not_ne_iff.mpr hlen), hbl]
          have he : (createOrderEndpoint db u (some k) items ship bill
              cur).2 = .error e := by simp [createOrderEndpoint, hv, hci]
          refine ⟨⟨e, he⟩, endpoint_error_db he, ?_⟩
          intro _ _ hex
          obtain ⟨prep, subtotal, hb2⟩ := hex
          cases hb2
        | ok pr =>
          obtain ⟨prep, subtotal⟩ := pr
          have hci : createInner db u (some k) items ship bill cur
              = .error .integrityError := by
            simp only [createInner, hmiss, if_neg (not_ne_iff.mpr hlen), hbl,
              if_pos hconf]
          have he : (createOrderEndpoint db u (some k) items ship bill
              cur).2 = .error .integrityError := by
            simp [createOrderEndpoint, hv, hci]
          exact ⟨⟨.integrityError, he⟩, endpoint_error_db he,
            fun _ _ _ => he⟩
      · have hci : createInner db u (some k) items ship bill cur
            = .error .invalidItems := by
          simp only [createInner, hmiss, if_pos hlen]
        have he : (createOrderEndpoint db u (some k) items ship bill
            cur).2 = .error .invalidItems := by
          simp [createOrderEndpoint, hv, hci]
        refine ⟨⟨.invalidItems, he⟩, endpoint_error_db he, ?_⟩
        intro _ hlen2 _
        exact absurd hlen2 hlen

/-- Witness for C10: user 9 holds key k1; the call by user 7 reusing k1
with a perfectly valid cart fails with the integrity error and leaves the
store unchanged, and the uniqueness invariant survives the call. -/
theorem c10_key_uniqueness_witness :
    UniqueKeys exDBk ∧
    (createOrderEndpoint exDBk 7 (some "k1") [⟨1, 1⟩] exAddr exAddr
      "USD").2 = .error .integrityError ∧
    (createOrderEndpoint exDBk 7 (some "k1") [⟨1, 1⟩] exAddr exAddr
      "USD").1 = exDBk ∧
    UniqueKeys (createOrderEndpoint exDBk 7 (some "k1") [⟨1, 1⟩] exAddr
      exAddr "USD").1 := by
  have hU : UniqueKeys exDBk := by
    intro o1 h1 o2 h2 k hk1 hk2
    have e1 : o1 = exOrderOther := by simpa [exDBk] using h1
    have e2 : o2 = exOrderOther := by simpa [exDBk] using h2
    rw [e1, e2]
  refine ⟨hU, ?_, ?_, ?_⟩
  · exact (c10_key_uniqueness.2 exDBk 7 "k1" [⟨1, 1⟩] exAddr exAddr "USD"
      exOrderOther hU (by simp [exDBk]) rfl (by decide) (by decide)).2.2
      rfl rfl ⟨[(⟨1, "A", 1000, 5, true⟩, 1, 1000)], 1000, rfl⟩
  · exact (c10_key_uniqueness.2 exDBk 7 "k1" [⟨1, 1⟩] exAddr exAddr "USD"
      exOrderOther hU (by simp [exDBk]) rfl (by decide) (by decide)).2.1
  · exact c10_key_uniqueness.1 exDBk 7 (some "k1") [⟨1, 1⟩] exAddr exAddr
      "USD" hU

end Shop
